import Mathlib

/-
Verification of the MonoSAT C API layer (src/monosat/api/Monosat.cpp).

The development shallowly embeds the literal algebra, the external/internal
variable map, and the API entry points that the checked properties concern.
Machine integers are modelled as Nat (external literals and solver variables
are dense non-negative ints) or Int (where the source can see negative
values); fallible calls (api_errorf / C++ throws) are modelled with explicit
error results.

Definitions come first, theorems follow.
-/

namespace MonosatAPI

/- ===== Literal algebra (minisat SolverTypes, used throughout Monosat.cpp) =====
   A literal packs (variable, sign) as an integer x; the source builds it as
   mkLit(var, sign).x = var + var + (int)sign, and reads it back with
   var(l) = l.x >> 1 and sign(l) = l.x & 1; negation is l.x ^ 1. -/

/-- mkLit from minisat: p.x = var + var + (int)sign. -/
def mkLit (v : Nat) (negated : Bool) : Nat :=
  v + v + (if negated then 1 else 0)

/-- var(l): l.x >> 1. -/
def litVar (l : Nat) : Nat := l >>> 1

/-- sign(l): l.x & 1. -/
def litSign (l : Nat) : Bool := l &&& 1 == 1

/-- literal negation: l.x ^ 1 (flips the low bit). -/
def litNeg (l : Nat) : Nat := l ^^^ 1

/-- varToLit from Monosat.cpp: toInt(mkLit(variable, negated)). -/
def varToLit (v : Nat) (negated : Bool) : Nat :=
  mkLit v negated

/-- dimacs(int externalLit) from Monosat.cpp:
    Lit l = toLit(externalLit); return sign(l) ? -(var(l)+1) : (var(l)+1). -/
def dimacs (e : Nat) : Int :=
  if litSign e then -((litVar e : Int) + 1) else (litVar e : Int) + 1

/- ===== The external/internal variable map (component D) =====
   internalLit / externalLit (Monosat.cpp lines 396-402) delegate to
   SimpSolver::mapLit and SimpSolver::unmap, which are not under src/. -/

/-- Modelled from the spec: the var-map layer (SimpSolver::mapLit /
    SimpSolver::unmap on literals and variables are not under src/).
    "Maintains two dense arrays: ext→int and int→ext"; the literal maps
    rename the variable and keep the sign bit, and "for every external
    variable handed to a client, there is exactly one internal variable;
    the map is a bijection maintained by component D". `nExtVars` counts
    the allocated external variables. -/
structure VarMap where
  extToInt : Nat → Nat
  intToExt : Nat → Nat
  nExtVars : Nat

/-- The bijection invariant of component D, restricted to allocated
    external variables: int→ext undoes ext→int. -/
def VarMap.Wf (m : VarMap) : Prop :=
  ∀ v, v < m.nExtVars → m.intToExt (m.extToInt v) = v

/-- internalLit from Monosat.cpp: S->mapLit(toLit(l)) — rename the variable
    through ext→int, keeping the sign. -/
def internalLit (m : VarMap) (e : Nat) : Nat :=
  mkLit (m.extToInt (litVar e)) (litSign e)

/-- externalLit from Monosat.cpp: toInt(S->unmap(l)) — rename the variable
    through int→ext, keeping the sign. -/
def externalLit (m : VarMap) (l : Nat) : Nat :=
  mkLit (m.intToExt (litVar l)) (litSign l)

/-- An identity var map with 10 allocated external variables, used for
    concrete spot checks. -/
def idVarMap10 : VarMap := VarMap.mk id id 10

/- ===== minimizeUnsatCore (Monosat.cpp lines 714-764) ===== -/

/-- minisat lbool: l_True, l_False, l_Undef. -/
inductive LBool
  | ltrue
  | lfalse
  | lundef
deriving DecidableEq

/-- The slice of SimpSolver / MonosatData state that minimizeUnsatCore
    touches: the var map, S->conflict (internal literals, as a list in
    insertion order), and the two MonosatData flags. -/
structure CoreSolver where
  vm : VarMap
  conflict : List Nat
  lastSolutionOptimal : Bool
  hasConflictFromLastSolution : Bool

/-- Modelled from the spec: minimizeCore (core/Optimize.cpp, not under
    src/). "Assumption core — the minimal subset of input assumptions
    sufficient to derive UNSAT" and "An UNSAT-under-assumptions result's
    returned core is a subset of the input assumptions": the routine
    shrinks the assumption vector in place to a subsequence of the
    assumptions it was handed and returns the solve status. It is kept
    abstract as an oracle constrained by this predicate (the caller's own
    assert(assumptions.size()<=n_lits) records the same contract). -/
def MinimizeCoreSpec (minimizeCore : List Nat → LBool × List Nat) : Prop :=
  ∀ assumptions, ((minimizeCore assumptions).2).Sublist assumptions

/-- Return value of the embedded minimizeUnsatCore: the returned count, the
    literals written back into the first `count` cells of
    unsat_assumptions, and the updated solver. -/
structure MinCoreResult where
  count : Nat
  written : List Nat
  solver : CoreSolver

/-- minimizeUnsatCore from Monosat.cpp: map the external assumption
    literals to internal ones, run minimizeCore, write the shrunk core
    back through externalLit, and on a non-SAT status replace S->conflict
    with the negations of the core literals. -/
def minimizeUnsatCore (minimizeCore : List Nat → LBool × List Nat)
    (S : CoreSolver) (unsat_assumptions : List Nat) : MinCoreResult :=
  let assumptions := unsat_assumptions.map (internalLit S.vm)
  let r := minimizeCore assumptions
  let core := r.2
  let written := core.map (externalLit S.vm)
  let S' :=
    if r.1 ≠ LBool.ltrue then
      { S with conflict := core.map litNeg,
               lastSolutionOptimal := r.1 != LBool.lundef,
               hasConflictFromLastSolution := true }
    else
      { S with lastSolutionOptimal := r.1 != LBool.lundef,
               hasConflictFromLastSolution := false }
  MinCoreResult.mk core.length written S'

/-- A concrete minimizeCore oracle for spot checks: report UNSAT and keep
    all but the first assumption. -/
def dropOneCore : List Nat → LBool × List Nat :=
  fun assumptions => (LBool.lfalse, assumptions.drop 1)

/-- A concrete CoreSolver for spot checks. -/
def coreSolver10 : CoreSolver := CoreSolver.mk idVarMap10 [] true false

/- ===== newNamedVar (Monosat.cpp lines 1021-1041) ===== -/

/-- isascii(c) from the C library, applied to a byte: true exactly on
    0..127 (bytes 128..255 read through a signed char are negative and
    rejected). -/
def isasciiB (c : Nat) : Bool := c ≤ 127

/-- isprint(c), C locale: printable characters are 0x20..0x7e. -/
def isprintB (c : Nat) : Bool := 32 ≤ c && c ≤ 126

/-- isspace(c), C locale: space and 0x09..0x0d. -/
def isspaceB (c : Nat) : Bool := c == 32 || (9 ≤ c && c ≤ 13)

/-- The state newNamedVar touches: the variable counter and the name
    table. Modelled from the spec: SimpSolver::hasVariable and
    SimpSolver::setVariableName are not under src/; "Named variables and
    named bitvectors live in separate hash tables; names must be unique
    non-empty ASCII-printable non-whitespace". The table maps names (byte
    strings) to variables. -/
structure NameSolver where
  nVars : Nat
  names : List (List Nat × Nat)
deriving DecidableEq

/-- SimpSolver::hasVariable(name): is the name already bound? -/
def hasVariable (S : NameSolver) (name : List Nat) : Bool :=
  S.names.any (fun p => p.1 == name)

/-- newVar from Monosat.cpp: allocate the next variable. -/
def newVarN (S : NameSolver) : Nat × NameSolver :=
  (S.nVars, NameSolver.mk (S.nVars + 1) S.names)

/-- setVariableName: bind the name to the variable in the table. -/
def setVariableNameN (S : NameSolver) (v : Nat) (name : List Nat) : NameSolver :=
  NameSolver.mk S.nVars ((name, v) :: S.names)

/-- Outcome of newNamedVar: a fresh variable with the updated solver, or a
    thrown std::invalid_argument together with the solver it leaves
    behind. -/
inductive NamedVarResult
  | ok (v : Nat) (S : NameSolver)
  | err (msg : String) (S : NameSolver)
deriving DecidableEq

def dupNameMsg : String := "All variable names must be unique."

def badCharMsg : String :=
  "Variable names must consist only of printable, non-whitespace ASCII."

/-- newNamedVar from Monosat.cpp. A null varname and an empty one both take
    the else branch, so both are modelled by the empty byte string. -/
def newNamedVar (S : NameSolver) (varname : List Nat) : NamedVarResult :=
  if varname.length > 0 then
    if hasVariable S varname then
      NamedVarResult.err dupNameMsg S
    else if varname.any (fun c => !(isasciiB c) || !(isprintB c) || isspaceB c) then
      NamedVarResult.err badCharMsg S
    else
      let p := newVarN S
      NamedVarResult.ok p.1 (setVariableNameN p.2 p.1 varname)
  else
    let p := newVarN S
    NamedVarResult.ok p.1 p.2

/- ===== bv_popcount (Monosat.cpp lines 1395-1410) ===== -/

/-- The slice of bitvector-theory state bv_popcount touches: the var map
    and the list of popcount nodes (resultID paired with the argument
    variables). BVTheorySolver::newPopCountBV is not under src/; modelled
    from the spec as registering a popcount operator node over the
    argument variables. -/
structure BVSolver where
  vm : VarMap
  popcounts : List (Nat × List Nat)

/-- Outcome of bv_popcount: the updated theory, or an api_errorf throw with
    the theory it leaves behind. -/
inductive PopcountResult
  | ok (bv : BVSolver)
  | err (msg : String) (bv : BVSolver)

def popcountNegMsg : String := "Popcount arguments must all be positive literals"

/-- bv_popcount from Monosat.cpp: map each argument through internalLit,
    raise api_errorf if any has its sign bit set, otherwise collect the
    variables and create the popcount node. -/
def bv_popcount (S : BVSolver) (args : List Nat) (resultID : Nat) : PopcountResult :=
  if args.any (fun a => litSign (internalLit S.vm a)) then
    PopcountResult.err popcountNegMsg S
  else
    PopcountResult.ok
      (BVSolver.mk S.vm
        ((resultID, args.map (fun a => litVar (internalLit S.vm a))) :: S.popcounts))

/-- A concrete BVSolver for spot checks. -/
def bvSolver10 : BVSolver := BVSolver.mk idVarMap10 []

/- ===== reaches / shortestPathUnweighted_lt_const (Monosat.cpp lines
   1669-1678 and 1699-1708) ===== -/

/-- A GNF trace line emitted by the graph reach/distance predicate
    constructors, with the fields written by write_out. -/
inductive TraceLine
  | reachLine (gid u v : Nat) (l : Int)
  | distanceLtLine (gid u v : Nat) (l : Int) (steps : Int)
deriving DecidableEq

/-- Modelled from the spec: the graph theory's detector hash-cons
    (GraphTheorySolver::hasReach / GraphTheorySolver::reaches are not
    under src/). "A detector is instantiated on demand when a predicate
    literal is first posted, and is re-used if an equivalent predicate is
    posted again (hash-consed by (kind, args))"; for the reach/distance
    kind the args key is (from, to, within_steps), "including the sentinel
    -1 for any length". `nextVar` allocates fresh predicate variables. -/
structure GraphState where
  gid : Nat
  reachTable : List ((Nat × Nat × Int) × Nat)
  nextVar : Nat
deriving DecidableEq

/-- GraphTheorySolver::hasReach(from, to, within_steps): the hash-cons
    lookup, returning the predicate literal stored under the key. -/
def hasReach (G : GraphState) (u v : Nat) (steps : Int) : Option Nat :=
  (G.reachTable.find? (fun p => p.1 == (u, v, steps))).map (fun p => p.2)

/-- Modelled from the spec: GraphTheorySolver::reaches(from, to,
    var_Undef, within_steps) returns the existing predicate literal when
    the key is already present, and otherwise allocates a fresh literal
    and registers it under the key. -/
def reachesG (G : GraphState) (u v : Nat) (steps : Int) : Nat × GraphState :=
  match hasReach G u v steps with
  | some l => (l, G)
  | none =>
      let l := mkLit G.nextVar false
      (l, GraphState.mk G.gid (((u, v, steps), l) :: G.reachTable) (G.nextVar + 1))

/-- reaches from Monosat.cpp: post reach(from, to) keyed at within_steps =
    -1; write the "reach" trace line only when G->hasReach(from, to, -1)
    was false. (The source returns externalLit(S, l); equal internal
    literals give equal external literals, so the literal is modelled at
    the internal level.) -/
def reaches (G : GraphState) (u v : Nat) : Nat × GraphState × Option TraceLine :=
  if (hasReach G u v (-1)).isSome then
    let p := reachesG G u v (-1)
    (p.1, p.2, none)
  else
    let p := reachesG G u v (-1)
    (p.1, p.2, some (TraceLine.reachLine G.gid u v (dimacs p.1)))

/-- shortestPathUnweighted_lt_const from Monosat.cpp: post
    reach-within-(steps-1), keyed at within_steps = steps - 1; write the
    "distance_lt" trace line only when G->hasReach(from, to, steps-1) was
    false. -/
def shortestPathUnweighted_lt_const (G : GraphState) (u v : Nat) (steps : Int) :
    Nat × GraphState × Option TraceLine :=
  if (hasReach G u v (steps - 1)).isSome then
    let p := reachesG G u v (steps - 1)
    (p.1, p.2, none)
  else
    let p := reachesG G u v (steps - 1)
    (p.1, p.2, some (TraceLine.distanceLtLine G.gid u v (dimacs p.1) steps))

/-- A concrete graph state for spot checks: reach(1,2,-1) already posted
    with literal 8. -/
def graphSpot : GraphState := GraphState.mk 0 [((1, 2, -1), 8)] 9

/- ===== _selectAlgorithms, opt_maxflow_alg branch (Monosat.cpp lines
   206-235) ===== -/

/-- tolower on a byte, C locale. -/
def asciiLower (c : Nat) : Nat := if 65 ≤ c ∧ c ≤ 90 then c + 32 else c

/-- strcasecmp equality: the two byte strings agree after tolower. -/
def strCaseEq (a b : List Nat) : Bool := a.map asciiLower == b.map asciiLower

/-- Bytes of a Lean string literal, used to write the C option strings. -/
def cstr (s : String) : List Nat := s.data.map Char.toNat

/-- MinCutAlg from the graph options header. -/
inductive MinCutAlg
  | ALG_EDMONSKARP
  | ALG_EDKARP_ADJ
  | ALG_EDKARP_DYN
  | ALG_DINITZ
  | ALG_DINITZ_LINKCUT
  | ALG_KOHLI_TORR
deriving DecidableEq

/-- The opt_maxflow_alg branch of _selectAlgorithms from Monosat.cpp: the
    chain of strcasecmp tests in source order; the final else calls
    api_errorf "Error: unknown max-flow/min-cut algorithm ..., aborting". -/
def selectMaxflowAlg (s : List Nat) : Except String MinCutAlg :=
  if strCaseEq s (cstr "edmondskarp-adj") then Except.ok MinCutAlg.ALG_EDKARP_ADJ
  else if strCaseEq s (cstr "edmondskarp") then Except.ok MinCutAlg.ALG_EDMONSKARP
  else if strCaseEq s (cstr "edmondskarp-dynamic") then Except.ok MinCutAlg.ALG_EDKARP_DYN
  else if strCaseEq s (cstr "dinics") then Except.ok MinCutAlg.ALG_DINITZ
  else if strCaseEq s (cstr "dinics-linkcut") then Except.ok MinCutAlg.ALG_DINITZ_LINKCUT
  else if strCaseEq s (cstr "dinitz") then Except.ok MinCutAlg.ALG_DINITZ
  else if strCaseEq s (cstr "dinitz-linkcut") then Except.ok MinCutAlg.ALG_DINITZ_LINKCUT
  else if strCaseEq s (cstr "dinits") then Except.ok MinCutAlg.ALG_DINITZ
  else if strCaseEq s (cstr "dinits-linkcut") then Except.ok MinCutAlg.ALG_DINITZ_LINKCUT
  else if strCaseEq s (cstr "kohli-torr") then Except.ok MinCutAlg.ALG_KOHLI_TORR
  else Except.error "Error: unknown max-flow/min-cut algorithm, aborting"

/-- The six algorithm names the claim (and the spec's option list) admits
    for opt_maxflow_alg. -/
def claimedMaxflowAlgStrings : List (List Nat) :=
  [cstr "edmondskarp", cstr "edmondskarp-adj", cstr "edmondskarp-dynamic",
   cstr "dinitz", cstr "dinitz-linkcut", cstr "kohli-torr"]

/-- All ten spellings the source actually accepts (case-insensitively). -/
def acceptedMaxflowAlgStrings : List (List Nat) :=
  [cstr "edmondskarp-adj", cstr "edmondskarp", cstr "edmondskarp-dynamic",
   cstr "dinics", cstr "dinics-linkcut", cstr "dinitz", cstr "dinitz-linkcut",
   cstr "dinits", cstr "dinits-linkcut", cstr "kohli-torr"]

/- ===== newBVComparison_bv_eq (Monosat.cpp lines 1343-1365) ===== -/

/-- Truth value of a solver literal under an assignment of the solver
    variables. -/
def evalLit (σ : Nat → Bool) (l : Nat) : Bool :=
  if litSign l then !(σ (litVar l)) else σ (litVar l)

/-- A clause is satisfied when some literal in it is true. -/
def evalClause (σ : Nat → Bool) (c : List Nat) : Bool :=
  c.any (evalLit σ)

/-- newBVComparison_bv_eq from Monosat.cpp, at the clause level: a is the
    literal returned by newBVComparison_bv_geq(bvID, compareID) and b the
    one returned by newBVComparison_bv_gt(bvID, compareID) (both built
    inside BVTheorySolver, which is not under src/, so they are taken as
    parameters); c = mkLit(S->newVar()) is fresh. The function adds
    (a ∨ ¬c), (¬b ∨ ¬c), (c ∨ ¬a ∨ b) and, when both bvs expose the same
    number of bit literals, (bit1_i ∨ ¬bit2_i ∨ ¬c) and
    (¬bit1_i ∨ bit2_i ∨ ¬c) for every position i. Returns c together with
    the clauses handed to S->addClause. -/
def newBVComparison_bv_eq (nVars : Nat) (a b : Nat) (bits1 bits2 : List Nat) :
    Nat × List (List Nat) :=
  let c := mkLit nVars false
  (c,
    [[a, litNeg c], [litNeg b, litNeg c], [c, litNeg a, b]] ++
      (if bits1.length = bits2.length then
        (bits1.zip bits2).flatMap
          (fun p => [[p.1, litNeg p.2, litNeg c], [litNeg p.1, p.2, litNeg c]])
      else []))

/-- A concrete assignment for the C5 spot check: every variable true except
    variable 1. -/
def sigmaSpot : Nat → Bool := fun v => !(v == 1)

/- ===== minimumSpanningTree_leq trace line (Monosat.cpp lines 1815-1822) ===== -/

/-- Count the conversion specifiers in a printf format string ("%%" is a
    literal percent sign and consumes no argument). -/
def countSpecifiers : List Char → Nat
  | [] => 0
  | '%' :: '%' :: rest => countSpecifiers rest
  | '%' :: rest => 1 + countSpecifiers rest
  | _ :: rest => countSpecifiers rest

/-- The format string minimumSpanningTree_leq hands to write_out, with
    PRId64 expanded (to "lld" here; any expansion of PRId64 is exactly one
    conversion specifier). -/
def mstWeightLeqFmt : List Char :=
  "mst_weight_leq %d %d %d %d %d %lld\n".data

/-- The variadic arguments minimumSpanningTree_leq passes after the format:
    G->getGraphID(), dimacs(S, l), weight. -/
def mstWeightLeqArgCount : Nat := 3

/-- The value count of the GNF line "mst_weight_leq <gid> <lit> <k>"
    (spec section 6), which the claim describes. -/
def mstWeightLeqClaimedFieldCount : Nat := 3

/- ===== getModel_Literal (Monosat.cpp lines 2014-2033) ===== -/

/-- var(l) on a C int literal encoding: arithmetic shift l.x >> 1, i.e.
    floor division by two (Euclidean division, the divisor being
    positive). -/
def ilitVar (l : Int) : Int := Int.ediv l 2

/-- sign(l) on a C int literal encoding: l.x & 1. -/
def ilitSign (l : Int) : Bool := Int.emod l 2 == 1

/-- toInt on a minisat lbool: l_True = 0, l_False = 1, l_Undef = 2. -/
def LBool.toIntM : LBool → Nat
  | LBool.ltrue => 0
  | LBool.lfalse => 1
  | LBool.lundef => 2

/-- The slice of solver state getModel_Literal reads. Modelled from the
    spec where SimpSolver::mapLit (not under src/) is concerned: it is
    kept abstract as the external-to-internal literal renaming; S->model
    is the stored last-SAT assignment indexed by internal variable, and
    S->nVars() bounds the allocated internal variables. -/
structure ModelSolver where
  mapLitI : Int → Int
  nVarsI : Int
  model : List LBool

/-- getModel_Literal from Monosat.cpp: api_errorf when the mapped
    literal's variable is negative or at least nVars; l_Undef when it is
    past the stored model; otherwise the model value, flipped when the
    sign bit is set. -/
def getModel_Literal (S : ModelSolver) (lit : Int) : Except String Nat :=
  if ilitVar (S.mapLitI lit) < 0 ∨ S.nVarsI ≤ ilitVar (S.mapLitI lit) then
    Except.error "Variable is undefined"
  else if (S.model.length : Int) ≤ ilitVar (S.mapLitI lit) then
    Except.ok LBool.lundef.toIntM
  else if ilitSign (S.mapLitI lit) then
    Except.ok (LBool.toIntM
      (match S.model.getD (ilitVar (S.mapLitI lit)).toNat LBool.lundef with
        | LBool.ltrue => LBool.lfalse
        | LBool.lfalse => LBool.ltrue
        | LBool.lundef => LBool.lundef))
  else
    Except.ok (LBool.toIntM (S.model.getD (ilitVar (S.mapLitI lit)).toNat LBool.lundef))

/-- Exchange the encodings of true (0) and false (1), keeping
    unassigned (2). -/
def flipNat : Nat → Nat
  | 0 => 1
  | 1 => 0
  | n => n

/-- A concrete ModelSolver for spot checks: identity literal map, one
    variable, model assigning it true. -/
def modelSpot : ModelSolver := ModelSolver.mk (fun x => x) 1 [LBool.ltrue]

/- ============================ THEOREMS ============================ -/

theorem litVar_eq_div (l : Nat) : litVar l = l / 2 := by
  simp [litVar, Nat.shiftRight_eq_div_pow]

theorem litSign_eq_mod (l : Nat) : litSign l = (l % 2 == 1) := by
  simp [litSign, Nat.and_one_is_mod]

theorem mkLit_eq (v : Nat) (s : Bool) : mkLit v s = 2 * v + (if s then 1 else 0) := by
  simp [mkLit]; ring

theorem litVar_mkLit (v : Nat) (s : Bool) : litVar (mkLit v s) = v := by
  rw [litVar_eq_div, mkLit_eq]
  cases s <;> (simp; try omega)

theorem litSign_mkLit (v : Nat) (s : Bool) : litSign (mkLit v s) = s := by
  rw [litSign_eq_mod, mkLit_eq]
  cases s <;> (simp [Nat.add_mul_mod_self_left]; try omega)

theorem mkLit_litVar_litSign (l : Nat) : mkLit (litVar l) (litSign l) = l := by
  rw [mkLit_eq, litVar_eq_div, litSign_eq_mod]
  rcases Nat.mod_two_eq_zero_or_one l with h | h <;> simp [h] <;> omega

theorem mkLit_eq_bit (v : Nat) (s : Bool) : mkLit v s = Nat.bit s v := by
  cases s <;> (simp [mkLit, Nat.bit]; ring)

theorem litNeg_mkLit (v : Nat) (s : Bool) : litNeg (mkLit v s) = mkLit v (!s) := by
  rw [litNeg, mkLit_eq_bit, mkLit_eq_bit, show (1 : Nat) = Nat.bit true 0 from rfl,
    Nat.xor_bit]
  simp

theorem litVar_litNeg (l : Nat) : litVar (litNeg l) = litVar l := by
  conv_lhs => rw [← mkLit_litVar_litSign l]
  rw [litNeg_mkLit, litVar_mkLit]

theorem litSign_litNeg (l : Nat) : litSign (litNeg l) = !(litSign l) := by
  conv_lhs => rw [← mkLit_litVar_litSign l]
  rw [litNeg_mkLit, litSign_mkLit]

/-- C3: varToLit(v, s) = 2*v + s, and dimacs(e) is -(var+1) when the low bit
    of e is set and +(var+1) otherwise, where var = e div 2. -/
theorem varToLit_dimacs_spec (v e : Nat) (s : Bool) :
    varToLit v s = 2 * v + (if s then 1 else 0) ∧
    dimacs e = (if e % 2 = 1 then -((e / 2 : Nat) + 1 : Int) else ((e / 2 : Nat) + 1 : Int)) := by
  constructor
  · rw [varToLit, mkLit_eq]
  · rw [dimacs, litSign_eq_mod, litVar_eq_div]
    rcases Nat.mod_two_eq_zero_or_one e with h | h <;> simp [h]

theorem internalLit_litSign (m : VarMap) (e : Nat) :
    litSign (internalLit m e) = litSign e := by
  rw [internalLit, litSign_mkLit]

theorem internalLit_litVar (m : VarMap) (e : Nat) :
    litVar (internalLit m e) = m.extToInt (litVar e) := by
  rw [internalLit, litVar_mkLit]

theorem externalLit_litNeg (m : VarMap) (l : Nat) :
    externalLit m (litNeg l) = litNeg (externalLit m l) := by
  rw [externalLit, externalLit, litVar_litNeg, litSign_litNeg, litNeg_mkLit]

theorem extInt_roundtrip (m : VarMap) (e : Nat)
    (hw : m.Wf) (he : litVar e < m.nExtVars) :
    externalLit m (internalLit m e) = e := by
  rw [externalLit, internalLit, litVar_mkLit, litSign_mkLit, hw _ he,
    mkLit_litVar_litSign]

/-- C2: for every allocated external literal e, externalLit(internalLit(e)) = e. -/
theorem externalLit_internalLit (m : VarMap) (e : Nat)
    (hw : m.Wf) (he : litVar e < m.nExtVars) :
    externalLit m (internalLit m e) = e :=
  extInt_roundtrip m e hw he

/-- Spot check of C2 on a concrete var map (identity renaming, 10 allocated
    external variables) and the external literal 5. -/
theorem externalLit_internalLit_spot :
    litVar 5 < idVarMap10.nExtVars ∧
    externalLit idVarMap10 (internalLit idVarMap10 5) = 5 :=
  ⟨by decide, externalLit_internalLit idVarMap10 5 (fun v _ => rfl) (by decide)⟩

theorem map_externalLit_internalLit (m : VarMap) (xs : List Nat)
    (hw : m.Wf) (halloc : ∀ e ∈ xs, litVar e < m.nExtVars) :
    (xs.map (internalLit m)).map (externalLit m) = xs := by
  rw [List.map_map]
  have h : ∀ e ∈ xs, (externalLit m ∘ internalLit m) e = id e := by
    intro e he
    simp only [Function.comp_apply, id_eq]
    exact extInt_roundtrip m e hw (halloc e he)
  rw [List.map_congr_left h, List.map_id]

/-- C1: minimizeUnsatCore returns a count at most n_lits; the literals it
    writes back are among the input assumption literals; and when the
    minimization status is not SAT, S->conflict holds exactly the negations
    of the written-back literals (stated through externalLit, since
    S->conflict stores internal literals). -/
theorem minimizeUnsatCore_spec (minimizeCore : List Nat → LBool × List Nat)
    (S : CoreSolver) (unsat_assumptions : List Nat)
    (hmc : MinimizeCoreSpec minimizeCore) (hw : S.vm.Wf)
    (halloc : ∀ e ∈ unsat_assumptions, litVar e < S.vm.nExtVars) :
    (minimizeUnsatCore minimizeCore S unsat_assumptions).count ≤ unsat_assumptions.length ∧
    (∀ x ∈ (minimizeUnsatCore minimizeCore S unsat_assumptions).written,
      x ∈ unsat_assumptions) ∧
    ((minimizeCore (unsat_assumptions.map (internalLit S.vm))).1 ≠ LBool.ltrue →
      ((minimizeUnsatCore minimizeCore S unsat_assumptions).solver.conflict.map
          (externalLit S.vm))
        = (minimizeUnsatCore minimizeCore S unsat_assumptions).written.map litNeg) := by
  have sub : ((minimizeCore (unsat_assumptions.map (internalLit S.vm))).2).Sublist
      (unsat_assumptions.map (internalLit S.vm)) := hmc _
  refine ⟨?_, ?_, ?_⟩
  · simpa [minimizeUnsatCore] using sub.length_le
  · intro x hx
    simp only [minimizeUnsatCore] at hx
    have hsub : (((minimizeCore (unsat_assumptions.map (internalLit S.vm))).2).map
        (externalLit S.vm)).Sublist unsat_assumptions := by
      have := sub.map (externalLit S.vm)
      rwa [map_externalLit_internalLit S.vm unsat_assumptions hw halloc] at this
    exact hsub.subset hx
  · intro hr
    simp only [minimizeUnsatCore, if_pos hr, List.map_map]
    apply List.map_congr_left
    intro l _
    simp only [Function.comp_apply]
    exact externalLit_litNeg S.vm l

/-- Spot check of C1 with a concrete oracle (drop the first assumption and
    report UNSAT) on assumptions [0, 2, 5]. -/
theorem minimizeUnsatCore_spot :
    (minimizeUnsatCore dropOneCore coreSolver10 [0, 2, 5]).count ≤ 3 ∧
    (∀ x ∈ (minimizeUnsatCore dropOneCore coreSolver10 [0, 2, 5]).written,
      x ∈ [0, 2, 5]) ∧
    ((dropOneCore ([0, 2, 5].map (internalLit coreSolver10.vm))).1 ≠ LBool.ltrue →
      ((minimizeUnsatCore dropOneCore coreSolver10 [0, 2, 5]).solver.conflict.map
          (externalLit coreSolver10.vm))
        = (minimizeUnsatCore dropOneCore coreSolver10 [0, 2, 5]).written.map litNeg) :=
  minimizeUnsatCore_spec dropOneCore coreSolver10 [0, 2, 5]
    (fun assumptions => List.drop_sublist 1 assumptions)
    (fun v _ => rfl) (by decide)

/-- C6: newNamedVar with a non-empty name throws and leaves the solver
    unchanged when the name is already in use or contains a character that
    is not printable non-whitespace ASCII; otherwise it allocates the next
    variable and binds the name to it; with an empty (or null) name it
    behaves exactly as newVar. -/
theorem newNamedVar_spec (S : NameSolver) (varname : List Nat) :
    (varname ≠ [] → hasVariable S varname = true →
      newNamedVar S varname = NamedVarResult.err dupNameMsg S) ∧
    (varname ≠ [] → hasVariable S varname = false →
      (∃ c ∈ varname, ¬(isasciiB c = true ∧ isprintB c = true ∧ isspaceB c = false)) →
      newNamedVar S varname = NamedVarResult.err badCharMsg S) ∧
    (varname ≠ [] → hasVariable S varname = false →
      (∀ c ∈ varname, isasciiB c = true ∧ isprintB c = true ∧ isspaceB c = false) →
      newNamedVar S varname
        = NamedVarResult.ok S.nVars
            (NameSolver.mk (S.nVars + 1) ((varname, S.nVars) :: S.names))) ∧
    (varname = [] →
      newNamedVar S varname
        = NamedVarResult.ok (newVarN S).1 (newVarN S).2) := by
  refine ⟨?_, ?_, ?_, ?_⟩
  · intro hne hdup
    simp [newNamedVar, List.length_pos, hne, hdup]
  · intro hne hdup hbad
    have hany : varname.any (fun c => !(isasciiB c) || !(isprintB c) || isspaceB c) = true := by
      rw [List.any_eq_true]
      obtain ⟨c, hc, hprop⟩ := hbad
      refine ⟨c, hc, ?_⟩
      by_cases h1 : isasciiB c <;> by_cases h2 : isprintB c <;> by_cases h3 : isspaceB c <;>
        simp_all
    simp [newNamedVar, List.length_pos, hne, hdup, hany]
  · intro hne hdup hgood
    have hany : varname.any (fun c => !(isasciiB c) || !(isprintB c) || isspaceB c) = false := by
      rw [List.any_eq_false]
      intro c hc
      obtain ⟨h1, h2, h3⟩ := hgood c hc
      simp [h1, h2, h3]
    simp [newNamedVar, List.length_pos, hne, hdup, hany, newVarN, setVariableNameN]
  · intro h
    simp [newNamedVar, h, newVarN]

/-- Spot check of C6: duplicate "x" rejected; " " (space) rejected; fresh
    "x" allocated and bound; empty name behaves as newVar. -/
theorem newNamedVar_spot :
    newNamedVar (NameSolver.mk 3 [([120], 0)]) [120]
      = NamedVarResult.err dupNameMsg (NameSolver.mk 3 [([120], 0)]) ∧
    newNamedVar (NameSolver.mk 3 []) [32]
      = NamedVarResult.err badCharMsg (NameSolver.mk 3 []) ∧
    newNamedVar (NameSolver.mk 3 []) [120]
      = NamedVarResult.ok 3 (NameSolver.mk 4 [([120], 3)]) ∧
    newNamedVar (NameSolver.mk 3 []) []
      = NamedVarResult.ok 3 (NameSolver.mk 4 []) :=
  ⟨(newNamedVar_spec (NameSolver.mk 3 [([120], 0)]) [120]).1 (by decide) (by decide),
   (newNamedVar_spec (NameSolver.mk 3 []) [32]).2.1 (by decide) (by decide)
     ⟨32, by decide, by decide⟩,
   (newNamedVar_spec (NameSolver.mk 3 []) [120]).2.2.1 (by decide) (by decide) (by decide),
   (newNamedVar_spec (NameSolver.mk 3 []) []).2.2.2 rfl⟩

/-- C7: bv_popcount raises an error and adds no popcount node when some
    argument is a negative literal (sign bit set); when all arguments are
    positive literals it creates a popcount node over their variables. -/
theorem bv_popcount_spec (S : BVSolver) (args : List Nat) (resultID : Nat) :
    ((∃ a ∈ args, litSign a = true) →
      bv_popcount S args resultID = PopcountResult.err popcountNegMsg S) ∧
    ((∀ a ∈ args, litSign a = false) →
      bv_popcount S args resultID
        = PopcountResult.ok
            (BVSolver.mk S.vm
              ((resultID, args.map (fun a => S.vm.extToInt (litVar a))) :: S.popcounts))) := by
  constructor
  · rintro ⟨a, ha, hs⟩
    have hany : args.any (fun a => litSign (internalLit S.vm a)) = true := by
      rw [List.any_eq_true]
      exact ⟨a, ha, by rw [internalLit_litSign]; exact hs⟩
    simp [bv_popcount, hany]
  · intro hall
    have hany : args.any (fun a => litSign (internalLit S.vm a)) = false := by
      rw [List.any_eq_false]
      intro a ha
      rw [internalLit_litSign]
      simp [hall a ha]
    have hmap : args.map (fun a => litVar (internalLit S.vm a))
        = args.map (fun a => S.vm.extToInt (litVar a)) := by
      apply List.map_congr_left
      intro a _
      rw [internalLit_litVar]
    simp [bv_popcount, hany, hmap]

/-- Spot check of C7: argument 3 (a negative literal) is rejected;
    arguments [2, 4] produce a popcount node over variables [1, 2]. -/
theorem bv_popcount_spot :
    bv_popcount bvSolver10 [3] 7 = PopcountResult.err popcountNegMsg bvSolver10 ∧
    bv_popcount bvSolver10 [2, 4] 7
      = PopcountResult.ok (BVSolver.mk bvSolver10.vm ((7, [1, 2]) :: bvSolver10.popcounts)) :=
  ⟨(bv_popcount_spec bvSolver10 [3] 7).1 ⟨3, by decide, by decide⟩,
   by
    have h := (bv_popcount_spec bvSolver10 [2, 4] 7).2 (by decide)
    simpa [bvSolver10, idVarMap10, litVar_eq_div] using h⟩

theorem reachesG_of_hasReach (G : GraphState) (u v : Nat) (steps : Int) (l : Nat)
    (h : hasReach G u v steps = some l) : reachesG G u v steps = (l, G) := by
  rw [reachesG, h]

theorem hasReach_reachesG (G : GraphState) (u v : Nat) (steps : Int) :
    hasReach (reachesG G u v steps).2 u v steps = some (reachesG G u v steps).1 := by
  rw [reachesG]
  cases h : hasReach G u v steps with
  | some l => simpa using h
  | none => simp [hasReach, List.find?]

/-- C4: a second reaches(u, v) call returns the same literal as the first,
    changes nothing, and emits no second trace line; and the hash-cons key
    probed by reaches(u, v) is (u, v, -1) while the one probed by
    shortestPathUnweighted_lt_const(u, v, steps) is (u, v, steps-1): a hit
    on that exact key returns the stored literal with no new trace line. -/
theorem reaches_idempotent_hashcons (G : GraphState) (u v : Nat) (steps : Int) :
    ((reaches (reaches G u v).2.1 u v).1 = (reaches G u v).1 ∧
     (reaches (reaches G u v).2.1 u v).2.1 = (reaches G u v).2.1 ∧
     (reaches (reaches G u v).2.1 u v).2.2 = none) ∧
    (∀ l, hasReach G u v (-1) = some l → reaches G u v = (l, G, none)) ∧
    (∀ l, hasReach G u v (steps - 1) = some l →
      shortestPathUnweighted_lt_const G u v steps = (l, G, none)) := by
  have key : ∀ G' : GraphState,
      reaches G' u v = ((reachesG G' u v (-1)).1, (reachesG G' u v (-1)).2,
        if (hasReach G' u v (-1)).isSome then none
        else some (TraceLine.reachLine G'.gid u v (dimacs (reachesG G' u v (-1)).1))) := by
    intro G'
    rw [reaches]
    split <;> simp_all
  refine ⟨?_, ?_, ?_⟩
  · have h1 : hasReach (reaches G u v).2.1 u v (-1) = some (reaches G u v).1 := by
      rw [key G]
      exact hasReach_reachesG G u v (-1)
    rw [key (reaches G u v).2.1, reachesG_of_hasReach _ u v (-1) _ h1, h1]
    simp
  · intro l h
    rw [key G, reachesG_of_hasReach G u v (-1) l h, h]
    simp
  · intro l h
    rw [shortestPathUnweighted_lt_const]
    split
    · rw [reachesG_of_hasReach G u v (steps - 1) l h]
    · simp_all

/-- Spot check of C4: with reach(1, 2) already posted under key (1, 2, -1)
    with literal 8, reaches(1, 2) reuses literal 8 silently, and so does
    shortestPathUnweighted_lt_const(1, 2, 0), whose key 0 - 1 collides with
    the sentinel -1. -/
theorem reaches_spot :
    reaches graphSpot 1 2 = (8, graphSpot, none) ∧
    shortestPathUnweighted_lt_const graphSpot 1 2 0 = (8, graphSpot, none) :=
  ⟨(reaches_idempotent_hashcons graphSpot 1 2 0).2.1 8 (by rfl),
   (reaches_idempotent_hashcons graphSpot 1 2 0).2.2 8 (by rfl)⟩

/-- C8 counterexample: the source also accepts "dinics" (and the other
    Dinitz spellings), which is not among the six claimed strings, and does
    not abort on it. -/
theorem selectMaxflowAlg_counterexample :
    cstr "dinics" ∉ claimedMaxflowAlgStrings ∧
    selectMaxflowAlg (cstr "dinics") = Except.ok MinCutAlg.ALG_DINITZ := by
  constructor
  · decide
  · rfl

set_option maxHeartbeats 3000000 in
/-- C8 amended: selectMaxflowAlg accepts exactly the strings that are
    case-insensitively equal to one of the ten spellings
    edmondskarp-adj, edmondskarp, edmondskarp-dynamic, dinics,
    dinics-linkcut, dinitz, dinitz-linkcut, dinits, dinits-linkcut,
    kohli-torr; every other string aborts with api_errorf. -/
theorem selectMaxflowAlg_accepts_iff (s : List Nat) :
    (∃ r, selectMaxflowAlg s = Except.ok r) ↔
      acceptedMaxflowAlgStrings.any (strCaseEq s) = true := by
  simp only [acceptedMaxflowAlgStrings, List.any_cons, List.any_nil, Bool.or_eq_true,
    Bool.or_false]
  rw [selectMaxflowAlg]
  split_ifs with h1 h2 h3 h4 h5 h6 h7 h8 h9 h10
  · simp [h1]
  · simp [h1, h2]
  · simp [h1, h2, h3]
  · simp [h1, h2, h3, h4]
  · simp [h1, h2, h3, h4, h5]
  · simp [h1, h2, h3, h4, h5, h6]
  · simp [h1, h2, h3, h4, h5, h6, h7]
  · simp [h1, h2, h3, h4, h5, h6, h7, h8]
  · simp [h1, h2, h3, h4, h5, h6, h7, h8, h9]
  · simp [h1, h2, h3, h4, h5, h6, h7, h8, h9, h10]
  · simp [h1, h2, h3, h4, h5, h6, h7, h8, h9, h10]

theorem evalLit_litNeg (σ : Nat → Bool) (l : Nat) :
    evalLit σ (litNeg l) = !(evalLit σ l) := by
  rw [evalLit, evalLit, litVar_litNeg, litSign_litNeg]
  cases h : litSign l <;> simp

/-- C5: under any assignment satisfying the clauses added by
    newBVComparison_bv_eq, and in which the geq literal a reads valA ≥ valB
    and the gt literal b reads valA > valB, the returned literal c is true
    exactly when valA ≥ valB and valA ≤ valB; and when the two bvs expose
    the same number of bit literals, c true forces the corresponding bit
    literals pairwise equal. -/
theorem newBVComparison_bv_eq_spec (nVars a b : Nat) (bits1 bits2 : List Nat)
    (σ : Nat → Bool) (valA valB : Nat)
    (hsat : ∀ cl ∈ (newBVComparison_bv_eq nVars a b bits1 bits2).2,
      evalClause σ cl = true)
    (ha : evalLit σ a = decide (valA ≥ valB))
    (hb : evalLit σ b = decide (valA > valB)) :
    (evalLit σ (newBVComparison_bv_eq nVars a b bits1 bits2).1 = true ↔
      (valA ≥ valB ∧ valA ≤ valB)) ∧
    (bits1.length = bits2.length →
      evalLit σ (newBVComparison_bv_eq nVars a b bits1 bits2).1 = true →
      ∀ p ∈ bits1.zip bits2, evalLit σ p.1 = evalLit σ p.2) := by
  set c := mkLit nVars false with hc
  have hres : (newBVComparison_bv_eq nVars a b bits1 bits2).1 = c := rfl
  have h1 : evalClause σ [a, litNeg c] = true := by
    apply hsat
    simp [newBVComparison_bv_eq]
  have h2 : evalClause σ [litNeg b, litNeg c] = true := by
    apply hsat
    simp [newBVComparison_bv_eq]
  have h3 : evalClause σ [c, litNeg a, b] = true := by
    apply hsat
    simp [newBVComparison_bv_eq]
  rw [evalClause] at h1 h2 h3
  simp only [List.any_cons, List.any_nil, Bool.or_false, Bool.or_eq_true,
    evalLit_litNeg] at h1 h2 h3
  rw [hres]
  constructor
  · constructor
    · intro hct
      simp only [hct, Bool.not_true, Bool.false_eq_true, or_false] at h1 h2
      rw [ha] at h1
      rw [hb] at h2
      constructor
      · exact of_decide_eq_true h1
      · have : ¬(valA > valB) := by
          intro hgt
          rw [decide_eq_true hgt] at h2
          simp at h2
        omega
    · rintro ⟨hge, hle⟩
      rcases h3 with hc3 | hc3 | hc3
      · exact hc3
      · rw [ha, decide_eq_true hge] at hc3
        simp at hc3
      · rw [hb] at hc3
        have := of_decide_eq_true hc3
        omega
  · intro hlen hct p hp
    have hmem1 : [p.1, litNeg p.2, litNeg c] ∈ (newBVComparison_bv_eq nVars a b bits1 bits2).2 := by
      simp only [newBVComparison_bv_eq, List.mem_append, if_pos hlen, List.mem_flatMap]
      right
      exact ⟨p, hp, by simp⟩
    have hmem2 : [litNeg p.1, p.2, litNeg c] ∈ (newBVComparison_bv_eq nVars a b bits1 bits2).2 := by
      simp only [newBVComparison_bv_eq, List.mem_append, if_pos hlen, List.mem_flatMap]
      right
      exact ⟨p, hp, by simp⟩
    have e1 := hsat _ hmem1
    have e2 := hsat _ hmem2
    rw [evalClause] at e1 e2
    simp only [List.any_cons, List.any_nil, Bool.or_false, Bool.or_eq_true,
      evalLit_litNeg, hct, Bool.not_true, or_false] at e1 e2
    rcases e1 with e1 | e1 <;> rcases e2 with e2 | e2 <;>
      simp_all

/-- Spot check of C5: with a = literal 0 reading 1 ≥ 1, b = literal 2
    reading 1 > 1, one bit literal on each side, and a satisfying
    assignment, c is true iff 1 ≥ 1 ∧ 1 ≤ 1 and the bits agree. -/
theorem newBVComparison_bv_eq_spot :
    (evalLit sigmaSpot (newBVComparison_bv_eq 10 0 2 [4] [6]).1 = true ↔
      ((1 : Nat) ≥ 1 ∧ (1 : Nat) ≤ 1)) ∧
    ([4].length = [6].length →
      evalLit sigmaSpot (newBVComparison_bv_eq 10 0 2 [4] [6]).1 = true →
      ∀ p ∈ List.zip [4] [6], evalLit sigmaSpot p.1 = evalLit sigmaSpot p.2) :=
  newBVComparison_bv_eq_spec 10 0 2 [4] [6] sigmaSpot 1 1
    (by decide) (by decide) (by decide)

/-- C9 (code bug): the claim says the trace line carries exactly the three
    values gid, lit, weight, but the format string of
    minimumSpanningTree_leq contains six conversion specifiers while the
    call passes only three variadic arguments; the remaining three
    conversions read unspecified varargs, so the line does not consist of
    exactly those three values. -/
theorem mstWeightLeq_format_mismatch :
    countSpecifiers mstWeightLeqFmt = 6 ∧
    mstWeightLeqArgCount = 3 ∧
    countSpecifiers mstWeightLeqFmt ≠ mstWeightLeqArgCount ∧
    countSpecifiers mstWeightLeqFmt ≠ mstWeightLeqClaimedFieldCount := by
  refine ⟨by decide, rfl, by decide, by decide⟩

theorem ilitVar_two_mul (v : Int) : ilitVar (2 * v) = v := by
  rw [ilitVar]
  exact Int.mul_ediv_cancel_left v (by norm_num)

theorem ilitSign_two_mul (v : Int) : ilitSign (2 * v) = false := by
  rw [ilitSign]
  rw [show Int.emod (2 * v) 2 = 0 from Int.mul_emod_right 2 v]
  rfl

/-- C10: getModel_Literal errors exactly when the mapped literal's variable
    is negative or not below nVars; within nVars but past the stored model
    it returns 2 (unassigned); and for a sign-bit-set literal whose
    variable is in the model, the returned value is the flip of the value
    returned for the positive literal of the same variable (true and false
    exchanged, unassigned kept). -/
theorem getModel_Literal_spec (S : ModelSolver) (lit lit2 : Int) :
    ((∃ msg, getModel_Literal S lit = Except.error msg) ↔
      (ilitVar (S.mapLitI lit) < 0 ∨ S.nVarsI ≤ ilitVar (S.mapLitI lit))) ∧
    (¬(ilitVar (S.mapLitI lit) < 0 ∨ S.nVarsI ≤ ilitVar (S.mapLitI lit)) →
      (S.model.length : Int) ≤ ilitVar (S.mapLitI lit) →
      getModel_Literal S lit = Except.ok 2) ∧
    (ilitSign (S.mapLitI lit) = true →
      ¬(ilitVar (S.mapLitI lit) < 0 ∨ S.nVarsI ≤ ilitVar (S.mapLitI lit)) →
      ilitVar (S.mapLitI lit) < (S.model.length : Int) →
      S.mapLitI lit2 = 2 * ilitVar (S.mapLitI lit) →
      ∀ r, getModel_Literal S lit2 = Except.ok r →
        getModel_Literal S lit = Except.ok (flipNat r)) := by
  refine ⟨?_, ?_, ?_⟩
  · constructor
    · intro ⟨msg, hmsg⟩
      by_contra hrange
      rw [getModel_Literal] at hmsg
      simp only [if_neg hrange] at hmsg
      split at hmsg <;> simp at hmsg
      split at hmsg <;> simp at hmsg
    · intro hrange
      exact ⟨"Variable is undefined", by rw [getModel_Literal, if_pos hrange]⟩
  · intro hrange hpast
    rw [getModel_Literal, if_neg hrange, if_pos hpast]
    rfl
  · intro hsign hrange hlt heq2 r hr2
    have hvr : ilitVar (S.mapLitI lit2) = ilitVar (S.mapLitI lit) := by
      rw [heq2, ilitVar_two_mul]
    have hsr : ilitSign (S.mapLitI lit2) = false := by
      rw [heq2, ilitSign_two_mul]
    rw [getModel_Literal] at hr2 ⊢
    rw [hvr, hsr] at hr2
    rw [if_neg hrange, if_neg (not_le.mpr hlt)] at hr2 ⊢
    rw [if_pos hsign]
    simp only [Bool.false_eq_true, if_false, Except.ok.injEq] at hr2
    subst hr2
    cases hval : S.model.getD (ilitVar (S.mapLitI lit)).toNat LBool.lundef <;>
      simp [hval, LBool.toIntM, flipNat]

/-- Spot check of C10: with an identity literal map, one variable whose
    model value is true, the negative literal 1 evaluates to 1 (false),
    the flip of the positive literal 0's value 0 (true). -/
theorem getModel_Literal_spot :
    getModel_Literal modelSpot 1 = Except.ok 1 := by
  have h := (getModel_Literal_spec modelSpot 1 0).2.2 (by decide) (by decide)
    (by decide) (by decide) 0 (by rfl)
  simpa [flipNat] using h

end MonosatAPI
